import Mathlib

/-!
Verification of the metrics-collection core of `src/dashboard/app.py`.

The program samples host-level and per-container resource usage on repeating
timers and stores derived percentages into fixed-capacity rolling history
lists in redis (LPUSH newest-first, then LTRIM to the capacity); HTTP read
endpoints fetch a whole list with LRANGE and reverse it into chronological
order.  We embed that core shallowly:

* redis values are modelled structurally: the entry string
  `"<ts>:<v1>[:<v2>]"` becomes a pair of a timestamp and a list of rational
  field values; a series key becomes a structured `SeriesKey` (the rendering
  of `SeriesKey` to the redis key string is injective, so nothing is lost);
* the store is a total function from keys to newest-first entry lists, with
  unknown keys holding `[]` (redis semantics for LRANGE/LINDEX on a missing
  key);
* each fallible external call (a `psutil` read, `container.stats(...)`)
  appears as an `Except Unit` input, so the `try/except/finally` control
  flow of the two collector functions is explicit: the embedding of a
  collector consumes the outcomes of those calls and returns the updated
  store together with a flag recording that the `finally` block rescheduled
  the next tick;
* Python floats are idealised as rationals; the `f"{x:.2f}"` formatting used
  for container samples is modelled as rounding to the nearest hundredth.
-/

namespace Waf

/-- A stored sample: the tick timestamp and the numeric field values of one
redis entry (the entry string form is `"<ts>:<v1>"`, or `"<ts>:<v1>:<v2>"`
for the host network series). -/
abbrev Entry : Type := Int × List ℚ

/-- A redis series key.  `host n` renders as the redis key `"<n>_history"`
(`cpu_history`, `memory_history`, `disk_history`, `network_history`);
`container cid n` renders as `"container:<cid>:<n>_history"`.  The rendering
is injective, so keys are modelled structurally. -/
inductive SeriesKey : Type
| host (name : String)
| container (cid : String) (name : String)
deriving DecidableEq

/-- The redis store restricted to the metric-history lists: each key holds a
list of entries, newest first.  A key never written holds the empty list. -/
def Store : Type := SeriesKey → List Entry

/-- The state of a redis instance with no metric history at all. -/
def emptyStore : Store := fun _ => []

/-- redis `LPUSH key e`: insert at the newest-first head of the key's list. -/
def lpush (key : SeriesKey) (e : Entry) (s : Store) : Store :=
  fun k => if k = key then e :: s k else s k

/-- redis `LTRIM key 0 (n-1)`: retain only the first `n` (newest) entries. -/
def ltrim (key : SeriesKey) (n : ℕ) (s : Store) : Store :=
  fun k => if k = key then (s k).take n else s k

/-- redis `LRANGE key 0 -1`: the whole stored list, newest first. -/
def lrange (s : Store) (key : SeriesKey) : List Entry := s key

/-- redis `LINDEX key 0`: the newest entry, if any. -/
def lindex0 (s : Store) (key : SeriesKey) : Option Entry := (s key).head?

/-- app.py line 31: 24 hours at one sample per minute. -/
def SYSTEM_METRICS_HISTORY_LENGTH : ℕ := 1440

/-- app.py line 32: 1 hour at one sample per second. -/
def CONTAINER_METRICS_HISTORY_LENGTH : ℕ := 60

/-- The `lpush` + `ltrim` pair that every collector write performs
(e.g. app.py lines 40-41, 97-98). -/
def appendTrim (key : SeriesKey) (n : ℕ) (e : Entry) (s : Store) : Store :=
  ltrim key n (lpush key e s)

/-- One tick's raw host readings (app.py lines 39, 44-45, 50-51, 56-58);
each step's psutil call may raise, which the embedding records as `.error`. -/
structure HostSnapshot where
  cpu_percent : Except Unit ℚ
  mem_percent : Except Unit ℚ
  disk_percent : Except Unit ℚ
  net_counters : Except Unit (Int × Int)

/-- app.py lines 34-66, `collect_system_metrics`: one tick of the host
collector.  The four steps run in order inside one `try:`; the first failing
step aborts the remaining writes (writes already issued stay in redis), and
the `finally:` block always schedules the next tick — recorded as the `Bool`
component, which is always `true`. -/
def collect_system_metrics (timestamp : Int) (snap : HostSnapshot) (s : Store) :
    Store × Bool :=
  match snap.cpu_percent with
  | .error _ => (s, true)
  | .ok cpu_percent =>
    let s := appendTrim (.host "cpu") SYSTEM_METRICS_HISTORY_LENGTH
      (timestamp, [cpu_percent]) s
    match snap.mem_percent with
    | .error _ => (s, true)
    | .ok mem_percent =>
      let s := appendTrim (.host "memory") SYSTEM_METRICS_HISTORY_LENGTH
        (timestamp, [mem_percent]) s
      match snap.disk_percent with
      | .error _ => (s, true)
      | .ok disk_percent =>
        let s := appendTrim (.host "disk") SYSTEM_METRICS_HISTORY_LENGTH
          (timestamp, [disk_percent]) s
        match snap.net_counters with
        | .error _ => (s, true)
        | .ok nc =>
          (appendTrim (.host "network") SYSTEM_METRICS_HISTORY_LENGTH
            (timestamp, [(nc.1 : ℚ), (nc.2 : ℚ)]) s, true)

/-- The `stats['cpu_stats']['cpu_usage']` sub-dict (app.py line 81). -/
structure CpuUsage where
  total_usage : Int

/-- The `stats['cpu_stats']` / `stats['precpu_stats']` sub-dicts
(app.py lines 81-83). -/
structure CpuStats where
  cpu_usage : CpuUsage
  system_cpu_usage : Int

/-- The `stats['memory_stats']` sub-dict; `usage` and `limit` are read with
`.get(k, 0)`, so they may be absent (app.py lines 92-93). -/
structure MemoryStats where
  usage : Option Int
  limit : Option Int

/-- One container's stats snapshot as the code reads it.  The code guards on
the presence of the top-level keys `cpu_stats`, `precpu_stats` and
`memory_stats` (app.py lines 80, 91), hence those are optional. -/
structure ContainerStats where
  cpu_stats : Option CpuStats
  precpu_stats : Option CpuStats
  memory_stats : Option MemoryStats

/-- app.py lines 79-85: the per-container CPU-percent computation.  Note
line 83 binds `number_cpus` to `stats['cpu_stats']['system_cpu_usage']`, the
cumulative system CPU-time counter, not a CPU count (the code's own comment
on that line says the value should be `total_cpus`). -/
def computeCpuPercent (stats : ContainerStats) : ℚ :=
  match stats.cpu_stats, stats.precpu_stats with
  | some cs, some pcs =>
    let cpu_delta : ℚ :=
      (cs.cpu_usage.total_usage : ℚ) - (pcs.cpu_usage.total_usage : ℚ)
    let system_delta : ℚ :=
      (cs.system_cpu_usage : ℚ) - (pcs.system_cpu_usage : ℚ)
    let number_cpus : ℚ := (cs.system_cpu_usage : ℚ)
    if number_cpus > 0 ∧ system_delta > 0 then
      (cpu_delta / system_delta) * number_cpus * 100
    else 0
  | _, _ => 0

/-- app.py lines 87-95: the per-container memory-percent computation. -/
def computeMemPercent (stats : ContainerStats) : ℚ :=
  match stats.memory_stats with
  | some ms =>
    let mem_usage : ℚ := ((ms.usage.getD 0 : Int) : ℚ)
    let mem_limit : ℚ := ((ms.limit.getD 0 : Int) : ℚ)
    if mem_limit > 0 then (mem_usage / mem_limit) * 100 else 0
  | none => 0

/-- The `cpu_delta` of app.py line 81 (0 when a top-level key is absent and
the computation is skipped). -/
def cpuDeltaOf (stats : ContainerStats) : Int :=
  match stats.cpu_stats, stats.precpu_stats with
  | some cs, some pcs => cs.cpu_usage.total_usage - pcs.cpu_usage.total_usage
  | _, _ => 0

/-- The `system_delta` of app.py line 82 (0 when a top-level key is absent). -/
def systemDeltaOf (stats : ContainerStats) : Int :=
  match stats.cpu_stats, stats.precpu_stats with
  | some cs, some pcs => cs.system_cpu_usage - pcs.system_cpu_usage
  | _, _ => 0

/-- The `mem_usage` of app.py line 92 (0 when `memory_stats` is absent). -/
def memUsageOf (stats : ContainerStats) : Int :=
  match stats.memory_stats with
  | some ms => ms.usage.getD 0
  | none => 0

/-- The `mem_limit` of app.py line 93 (0 when `memory_stats` is absent). -/
def memLimitOf (stats : ContainerStats) : Int :=
  match stats.memory_stats with
  | some ms => ms.limit.getD 0
  | none => 0

/-- Python's `f"{x:.2f}"` formatting of a container sample value, idealised
over rationals: round to the nearest hundredth.  (Python breaks ties on the
scaled value to even where this rounds half up; either tie rule stays within
the 1/200 reconstruction bound proved below.) -/
def format2 (x : ℚ) : ℚ := ((round (x * 100) : ℤ) : ℚ) / 100

/-- app.py lines 97-101: write one container's two samples — the computed
CPU percent and memory percent, each formatted to two decimal places — into
its two history keys. -/
def writeContainerSample (timestamp : Int) (cid : String)
    (stats : ContainerStats) (s : Store) : Store :=
  let s := appendTrim (.container cid "cpu") CONTAINER_METRICS_HISTORY_LENGTH
    (timestamp, [format2 (computeCpuPercent stats)]) s
  appendTrim (.container cid "memory") CONTAINER_METRICS_HISTORY_LENGTH
    (timestamp, [format2 (computeMemPercent stats)]) s

/-- app.py lines 73-104: the `for container in docker_client.containers.list()`
loop of `collect_container_metrics`, run inside a single `try:`.  The input
lists each container's id together with the outcome of its
`container.stats(stream=False)` fetch; the first failing fetch raises out of
the loop to the outer `except`, so every later container is skipped for this
tick while the writes already issued stay in redis. -/
def containerTick (timestamp : Int)
    (fetches : List (String × Except Unit ContainerStats)) (s : Store) : Store :=
  match fetches with
  | [] => s
  | (_, .error _) :: _ => s
  | (cid, .ok stats) :: rest =>
    containerTick timestamp rest (writeContainerSample timestamp cid stats s)

/-- app.py lines 68-107, `collect_container_metrics`: one tick of the
container collector.  The `Bool` component records that the `finally:` block
scheduled the next tick; it is always `true`. -/
def collect_container_metrics (timestamp : Int)
    (fetches : List (String × Except Unit ContainerStats)) (s : Store) :
    Store × Bool :=
  (containerTick timestamp fetches s, true)

/-- The read pattern shared by `index`, `get_metrics` and
`get_container_metrics` (app.py lines 174, 264, 311, ...):
`reversed(redis_client.lrange(key, 0, -1))`, i.e. the stored newest-first
list reversed into chronological order. -/
def rangeRead (s : Store) (key : SeriesKey) : List Entry :=
  (lrange s key).reverse

/-- app.py lines 304-328, `get_container_metrics`: the chronological CPU and
memory series of one container. -/
def get_container_metrics (s : Store) (cid : String) : List Entry × List Entry :=
  (rangeRead s (.container cid "cpu"), rangeRead s (.container cid "memory"))

/-- app.py lines 131-149 inside `index`: the latest value of a series for
the at-a-glance table — `LINDEX key 0`, then the first numeric field of the
entry.  `none` renders as the string "N/A". -/
def latestSnapshot (s : Store) (key : SeriesKey) : Option ℚ :=
  (lindex0 s key).bind fun e => e.2.head?

/-- Iterated ring-buffer append: perform the collectors' `lpush` + `ltrim`
pair once per entry, oldest entry first (one write per tick, ticks in time
order). -/
def appendAll (key : SeriesKey) (n : ℕ) (entries : List Entry) (s : Store) :
    Store :=
  entries.foldl (fun acc e => appendTrim key n e acc) s

lemma head?_take_cons {α : Type} (e : α) (l : List α) (n : ℕ) (h : 1 ≤ n) :
    ((e :: l).take n).head? = some e := by
  cases n with
  | zero => omega
  | succ m => rfl

lemma take_append_take {α : Type} (xs ys : List α) (n : ℕ) :
    (xs ++ ys.take n).take n = (xs ++ ys).take n := by
  rw [List.take_append_eq_append_take, List.take_append_eq_append_take,
    List.take_take, Nat.min_eq_left (Nat.sub_le n xs.length)]

lemma appendTrim_apply (key : SeriesKey) (n : ℕ) (e : Entry) (s : Store) :
    appendTrim key n e s key = (e :: s key).take n := by
  simp [appendTrim, ltrim, lpush]

lemma appendAll_apply (key : SeriesKey) (n : ℕ) (entries : List Entry)
    (s : Store) (h : (s key).length ≤ n) :
    appendAll key n entries s key = (entries.reverse ++ s key).take n := by
  induction entries generalizing s with
  | nil => simp [appendAll, List.take_of_length_le h]
  | cons e es ih =>
    have hlen : ((appendTrim key n e s) key).length ≤ n := by
      rw [appendTrim_apply]; exact List.length_take_le _ _
    calc appendAll key n (e :: es) s key
        = appendAll key n es (appendTrim key n e s) key := rfl
      _ = (es.reverse ++ (appendTrim key n e s) key).take n := ih _ hlen
      _ = (es.reverse ++ (e :: s key).take n).take n := by rw [appendTrim_apply]
      _ = (es.reverse ++ (e :: s key)).take n := take_append_take _ _ n
      _ = ((e :: es).reverse ++ s key).take n := by
          simp [List.reverse_cons, List.append_assoc]

lemma reverse_take_reverse {α : Type} (l : List α) (n : ℕ) :
    (l.reverse.take n).reverse = l.drop (l.length - n) := by
  by_cases hn : n ≤ l.length
  · have h := @List.reverse_drop α l (l.length - n)
    have hnn : l.length - (l.length - n) = n := by omega
    rw [hnn] at h
    rw [← h, List.reverse_reverse]
  · have hl : l.length ≤ n := by omega
    rw [List.take_of_length_le (by simpa using hl), List.reverse_reverse,
      Nat.sub_eq_zero_of_le hl, List.drop_zero]

lemma rangeRead_appendAll (key : SeriesKey) (n : ℕ) (entries : List Entry) :
    rangeRead (appendAll key n entries emptyStore) key =
      entries.drop (entries.length - n) := by
  have h := appendAll_apply key n entries emptyStore (by simp [emptyStore])
  rw [rangeRead, lrange, h,
    show entries.reverse ++ emptyStore key = entries.reverse by simp [emptyStore]]
  exact reverse_take_reverse entries n

/-- C3: for every sequence of N+k appends to a series of capacity N, the
buffer's length never exceeds N, and a range read returns exactly the N most
recent samples in insertion order, the k oldest having been evicted. -/
theorem ring_buffer_capacity (key : SeriesKey) (n k : ℕ) (entries : List Entry)
    (h : entries.length = n + k) :
    (∀ es : List Entry, ((appendAll key n es emptyStore) key).length ≤ n) ∧
    rangeRead (appendAll key n entries emptyStore) key = entries.drop k ∧
    (rangeRead (appendAll key n entries emptyStore) key).length = n := by
  refine ⟨fun es => ?_, ?_, ?_⟩
  · rw [appendAll_apply key n es emptyStore (by simp [emptyStore])]
    exact List.length_take_le _ _
  · rw [rangeRead_appendAll]
    congr 1
    omega
  · rw [rangeRead_appendAll, List.length_drop]
    omega

/-- C3 witness: capacity 3, appends at t=1,2,3,4 with values 10,20,30,40;
the range read returns [(2,20),(3,30),(4,40)]. -/
theorem ring_buffer_capacity_witness :
    rangeRead (appendAll (.host "cpu") 3
        [(1, [10]), (2, [20]), (3, [30]), (4, [40])] emptyStore) (.host "cpu") =
      [(2, [20]), (3, [30]), (4, [40])] ∧
    (rangeRead (appendAll (.host "cpu") 3
        [(1, [10]), (2, [20]), (3, [30]), (4, [40])] emptyStore)
      (.host "cpu")).length = 3 := by
  have h := ring_buffer_capacity (.host "cpu") 3 1
    [(1, [10]), (2, [20]), (3, [30]), (4, [40])] (by decide)
  exact ⟨by simpa using h.2.1, h.2.2⟩

/-- C5: a range read returns all retained samples in insertion order (oldest
first), and when the appended timestamps are non-decreasing in append order
(each key is written once per tick, ticks in time order) the returned
timestamps are non-decreasing — independent of the newest-first storage
order. -/
theorem range_read_chronological (key : SeriesKey) (n : ℕ) (entries : List Entry)
    (h : List.Chain' (fun a b : Entry => a.1 ≤ b.1) entries) :
    rangeRead (appendAll key n entries emptyStore) key =
      entries.drop (entries.length - n) ∧
    List.Chain' (fun a b : Entry => a.1 ≤ b.1)
      (rangeRead (appendAll key n entries emptyStore) key) := by
  haveI : IsTrans Entry (fun a b : Entry => a.1 ≤ b.1) :=
    ⟨fun _ _ _ h1 h2 => le_trans h1 h2⟩
  refine ⟨rangeRead_appendAll key n entries, ?_⟩
  rw [rangeRead_appendAll]
  rw [List.chain'_iff_pairwise] at h ⊢
  exact h.sublist (List.drop_sublist _ _)

/-- C5 witness: capacity 2, appends at t=1,2,3; the range read is the
chronological suffix [(2,20),(3,30)]. -/
theorem range_read_chronological_witness :
    rangeRead (appendAll (.container "w" "cpu") 2
        [(1, [10]), (2, [20]), (3, [30])] emptyStore) (.container "w" "cpu") =
      [(2, [20]), (3, [30])] ∧
    List.Chain' (fun a b : Entry => a.1 ≤ b.1)
      (rangeRead (appendAll (.container "w" "cpu") 2
        [(1, [10]), (2, [20]), (3, [30])] emptyStore) (.container "w" "cpu")) := by
  have h := range_read_chronological (.container "w" "cpu") 2
    [(1, [10]), (2, [20]), (3, [30])] (by simp)
  exact ⟨by simpa using h.1, h.2⟩

/-- C7: a zero or absent memory limit yields percent 0 (the dividing branch
is not entered), and a positive limit yields usage / limit * 100. -/
theorem mem_percent_spec (stats : ContainerStats) :
    (memLimitOf stats ≤ 0 → computeMemPercent stats = 0) ∧
    (0 < memLimitOf stats →
      computeMemPercent stats =
        ((memUsageOf stats : ℚ) / (memLimitOf stats : ℚ)) * 100) := by
  cases hms : stats.memory_stats with
  | none => simp [computeMemPercent, memLimitOf, hms]
  | some ms =>
    refine ⟨fun h => ?_, fun h => ?_⟩
    · have hl : ms.limit.getD 0 ≤ 0 := by simpa [memLimitOf, hms] using h
      simp only [computeMemPercent, hms]
      rw [if_neg]
      intro hpos
      rw [gt_iff_lt, Int.cast_pos] at hpos
      omega
    · have hl : 0 < ms.limit.getD 0 := by simpa [memLimitOf, hms] using h
      simp only [computeMemPercent, memUsageOf, memLimitOf, hms]
      rw [if_pos]
      rw [gt_iff_lt, Int.cast_pos]
      exact hl

/-- A memory-stats snapshot with usage 1 and limit 2. -/
def memStats7 : ContainerStats := ⟨none, none, some ⟨some 1, some 2⟩⟩

/-- C7 witness: usage 1, limit 2 gives 50 percent. -/
theorem mem_percent_spec_witness :
    0 < memLimitOf memStats7 ∧ computeMemPercent memStats7 = 50 := by
  refine ⟨by decide, ?_⟩
  have h := (mem_percent_spec memStats7).2 (by decide)
  rw [h]
  norm_num [memUsageOf, memLimitOf, memStats7]

lemma cpu_percent_zero_of_nonpos_system_delta (stats : ContainerStats)
    (h : systemDeltaOf stats ≤ 0) : computeCpuPercent stats = 0 := by
  cases hcs : stats.cpu_stats with
  | none => simp [computeCpuPercent, hcs]
  | some cs =>
    cases hp : stats.precpu_stats with
    | none => simp [computeCpuPercent, hcs, hp]
    | some pcs =>
      have hsd : cs.system_cpu_usage - pcs.system_cpu_usage ≤ 0 := by
        simpa [systemDeltaOf, hcs, hp] using h
      simp only [computeCpuPercent, hcs, hp]
      rw [if_neg]
      rintro ⟨-, hpos⟩
      rw [gt_iff_lt, ← Int.cast_sub, Int.cast_pos] at hpos
      omega

/-- C8: when no previous-sample baseline is present (the `precpu_stats` key
is absent, so the guard on line 80 skips the computation) or when
system_delta is not positive (the guard on line 84 fails), the computed CPU
percent is 0, and the tick still writes the 0-percent sample rather than
failing. -/
theorem cpu_percent_baseline_guard (stats : ContainerStats) (cid : String)
    (t : Int) (s : Store)
    (h : stats.precpu_stats = none ∨ systemDeltaOf stats ≤ 0) :
    computeCpuPercent stats = 0 ∧
    containerTick t [(cid, .ok stats)] s (.container cid "cpu") =
      ((t, [format2 0]) :: s (.container cid "cpu")).take
        CONTAINER_METRICS_HISTORY_LENGTH := by
  have hz : computeCpuPercent stats = 0 := by
    rcases h with h | h
    · cases hcs : stats.cpu_stats <;> simp [computeCpuPercent, h, hcs]
    · exact cpu_percent_zero_of_nonpos_system_delta stats h
  refine ⟨hz, ?_⟩
  show writeContainerSample t cid stats s (.container cid "cpu") = _
  simp [writeContainerSample, appendTrim, ltrim, lpush, hz]

/-- A first-observation stats snapshot: `precpu_stats` absent. -/
def firstObservationStats : ContainerStats := ⟨some ⟨⟨5⟩, 10⟩, none, none⟩

/-- C8 witness: a first observation emits percent 0 and the sample is still
written. -/
theorem cpu_percent_baseline_guard_witness :
    computeCpuPercent firstObservationStats = 0 ∧
    containerTick 3 [("a", .ok firstObservationStats)] emptyStore
      (.container "a" "cpu") =
      ((3, [format2 0]) :: emptyStore (.container "a" "cpu")).take
        CONTAINER_METRICS_HISTORY_LENGTH :=
  cpu_percent_baseline_guard firstObservationStats "a" 3 emptyStore (Or.inl rfl)

/-- A stats snapshot whose computed percent exceeds 100:
cpu_delta = 300, system_delta = 2, and line 83's `number_cpus` = 4. -/
def unclampedStats : ContainerStats := ⟨some ⟨⟨300⟩, 4⟩, some ⟨⟨0⟩, 2⟩, none⟩

/-- C4 counterexample: the computed workload CPU percent is 60000, far
outside [0, 100], with system_delta = 2 > 0; no clamping exists in the
code. -/
theorem cpu_percent_exceeds_100 :
    computeCpuPercent unclampedStats = 60000 ∧
    ¬ computeCpuPercent unclampedStats ≤ 100 := by
  norm_num [computeCpuPercent, unclampedStats]

/-- C4 amended: the computed percentages have only the lower bound — the
workload CPU percent is nonnegative when the usage counter did not decrease
and is 0 when system_delta is not positive, and the memory percent is
nonnegative for nonnegative usage; no upper clamp to 100 is applied. -/
theorem percent_lower_bound (stats : ContainerStats)
    (hc : 0 ≤ cpuDeltaOf stats) (hm : 0 ≤ memUsageOf stats) :
    0 ≤ computeCpuPercent stats ∧
    (systemDeltaOf stats ≤ 0 → computeCpuPercent stats = 0) ∧
    0 ≤ computeMemPercent stats := by
  refine ⟨?_, cpu_percent_zero_of_nonpos_system_delta stats, ?_⟩
  · cases hcs : stats.cpu_stats with
    | none => simp [computeCpuPercent, hcs]
    | some cs =>
      cases hp : stats.precpu_stats with
      | none => simp [computeCpuPercent, hcs, hp]
      | some pcs =>
        have hd : (0 : ℚ) ≤
            (cs.cpu_usage.total_usage : ℚ) - (pcs.cpu_usage.total_usage : ℚ) := by
          rw [← Int.cast_sub, ← Int.cast_zero, Int.cast_le]
          simpa [cpuDeltaOf, hcs, hp] using hc
        simp only [computeCpuPercent, hcs, hp]
        split
        · next hcond =>
          rw [gt_iff_lt] at hcond
          have hq : (0 : ℚ) ≤
              ((cs.cpu_usage.total_usage : ℚ) - (pcs.cpu_usage.total_usage : ℚ)) /
                ((cs.system_cpu_usage : ℚ) - (pcs.system_cpu_usage : ℚ)) :=
            div_nonneg hd (le_of_lt hcond.2)
          exact mul_nonneg (mul_nonneg hq (le_of_lt hcond.1)) (by norm_num)
        · exact le_refl 0
  · cases hms : stats.memory_stats with
    | none => simp [computeMemPercent, hms]
    | some ms =>
      have hu : (0 : ℚ) ≤ (ms.usage.getD 0 : ℚ) := by
        rw [← Int.cast_zero, Int.cast_le]
        simpa [memUsageOf, hms] using hm
      simp only [computeMemPercent, hms]
      split
      · next hcond =>
        rw [gt_iff_lt] at hcond
        exact mul_nonneg (div_nonneg hu (le_of_lt hcond)) (by norm_num)
      · exact le_refl 0

/-- A stats snapshot with nonnegative deltas: cpu_delta = 5,
system_delta = 4, memory usage 3 of limit 4. -/
def boundedStats : ContainerStats :=
  ⟨some ⟨⟨6⟩, 8⟩, some ⟨⟨1⟩, 4⟩, some ⟨some 3, some 4⟩⟩

/-- C4 amended witness: the lower bounds at a concrete snapshot. -/
theorem percent_lower_bound_witness :
    0 ≤ computeCpuPercent boundedStats ∧
    (systemDeltaOf boundedStats ≤ 0 → computeCpuPercent boundedStats = 0) ∧
    0 ≤ computeMemPercent boundedStats :=
  percent_lower_bound boundedStats (by decide) (by decide)

/-- The failing input for the claim about line 83: cumulative CPU usage
150 now and 100 before, cumulative system CPU usage 1000000 now and 999900
before, so cpu_delta = 50 and system_delta = 100. -/
def conflatedStats : ContainerStats :=
  ⟨some ⟨⟨150⟩, 1000000⟩, some ⟨⟨100⟩, 999900⟩, none⟩

/-- C1: the code stores (cpu_delta / system_delta) * number_cpus * 100 where
line 83 binds number_cpus to the cumulative `system_cpu_usage` counter, not
the runtime-reported CPU count; at the failing input the stored percent is
50000000, while the claim's formula with cpu_count = 2 gives 100. -/
theorem cpu_percent_uses_counter_not_count :
    computeCpuPercent conflatedStats = 50000000 ∧
    ((50 : ℚ) / 100) * 2 * 100 = 100 := by
  norm_num [computeCpuPercent, conflatedStats]

/-- A stats snapshot with none of the guarded keys present: both computed
percentages are 0 and the samples are still written. -/
def emptyStats : ContainerStats := ⟨none, none, none⟩

/-- C2 counterexample: containers a, b, c sampled in one tick with b's stats
fetch failing — the exception leaves the loop, so a's sample is written but
c gets none in that tick. -/
theorem tick_not_isolated :
    containerTick 5 [("a", .ok emptyStats), ("b", .error ()), ("c", .ok emptyStats)]
      emptyStore (.container "c" "cpu") = [] ∧
    containerTick 5 [("a", .ok emptyStats), ("b", .error ()), ("c", .ok emptyStats)]
      emptyStore (.container "a" "cpu") = [(5, [format2 0])] := by
  constructor
  · simp [containerTick, writeContainerSample, appendTrim, ltrim, lpush, emptyStore]
  · simp [containerTick, writeContainerSample, appendTrim, ltrim, lpush, emptyStore,
      computeCpuPercent, emptyStats, CONTAINER_METRICS_HISTORY_LENGTH]

/-- Wrap a list of per-container stats as successful fetch outcomes. -/
def okFetches (l : List (String × ContainerStats)) :
    List (String × Except Unit ContainerStats) :=
  l.map fun p => (p.1, .ok p.2)

/-- C2 amended: the first failing stats fetch aborts the remainder of the
tick — the store ends exactly as it was after the successfully processed
prefix (so containers after the failure get no samples this tick, while the
prefix's writes stay), and the next tick is still scheduled. -/
theorem tick_aborts_suffix (t : Int) (good : List (String × ContainerStats))
    (b : String) (rest : List (String × Except Unit ContainerStats)) (s : Store) :
    containerTick t (okFetches good ++ (b, .error ()) :: rest) s =
      containerTick t (okFetches good) s ∧
    (collect_container_metrics t (okFetches good ++ (b, .error ()) :: rest) s).2 =
      true := by
  refine ⟨?_, rfl⟩
  induction good generalizing s with
  | nil => rfl
  | cons p ps ih => exact ih (writeContainerSample t p.1 p.2 s)

/-- One tick's host readings in which the disk step raises (for example,
`psutil.disk_usage('/host')` when the mount is absent) after the cpu and
memory steps succeeded. -/
def failingDiskSnap : HostSnapshot := ⟨.ok 5, .ok 42, .error (), .ok (1, 2)⟩

/-- C6 counterexample: a tick whose disk step fails still leaves the cpu
sample written earlier in that same tick in the store, so the store is not
unchanged by the failed tick. -/
theorem failed_tick_partial_write :
    failingDiskSnap.disk_percent = .error () ∧
    (collect_system_metrics 7 failingDiskSnap emptyStore).1 (.host "cpu") =
      [(7, [5])] ∧
    emptyStore (.host "cpu") = [] := by
  refine ⟨rfl, ?_, rfl⟩
  simp [collect_system_metrics, failingDiskSnap, appendTrim, ltrim, lpush, emptyStore,
    SYSTEM_METRICS_HISTORY_LENGTH]

/-- C6 amended: a failing step ends the tick's writes — steps after the
failure (here: the network write after a disk failure) leave their series
untouched, writes already issued (here: the cpu sample) remain, and the
`finally:` block still schedules the next tick. -/
theorem system_tick_failure_contained (t : Int) (snap : HostSnapshot) (s : Store)
    (hd : snap.disk_percent = .error ()) :
    (collect_system_metrics t snap s).2 = true ∧
    (collect_system_metrics t snap s).1 (.host "network") = s (.host "network") ∧
    (∀ c : ℚ, snap.cpu_percent = .ok c →
      (collect_system_metrics t snap s).1 (.host "cpu") =
        ((t, [c]) :: s (.host "cpu")).take SYSTEM_METRICS_HISTORY_LENGTH) := by
  obtain ⟨cp, mp, dp, nc⟩ := snap
  cases hd
  cases cp with
  | error e => exact ⟨rfl, rfl, fun c hc => by cases hc⟩
  | ok c0 =>
    cases mp with
    | error e =>
      refine ⟨rfl, ?_, fun c hc => ?_⟩
      · simp [collect_system_metrics, appendTrim, ltrim, lpush]
      · cases hc
        simp [collect_system_metrics, appendTrim, ltrim, lpush]
    | ok m0 =>
      refine ⟨rfl, ?_, fun c hc => ?_⟩
      · simp [collect_system_metrics, appendTrim, ltrim, lpush]
      · cases hc
        simp [collect_system_metrics, appendTrim, ltrim, lpush]

/-- C6 amended witness: the contained failure at the concrete snapshot. -/
theorem system_tick_failure_contained_witness :
    (collect_system_metrics 7 failingDiskSnap emptyStore).2 = true ∧
    (collect_system_metrics 7 failingDiskSnap emptyStore).1 (.host "network") =
      emptyStore (.host "network") ∧
    (collect_system_metrics 7 failingDiskSnap emptyStore).1 (.host "cpu") =
      ((7, [5]) :: emptyStore (.host "cpu")).take SYSTEM_METRICS_HISTORY_LENGTH := by
  have h := system_tick_failure_contained 7 failingDiskSnap emptyStore rfl
  exact ⟨h.1, h.2.1, h.2.2 5 rfl⟩

/-- C9: an unknown or never-written key reads back as the empty series, and
the at-a-glance snapshot reports `none` (rendered "N/A") instead of
raising. -/
theorem empty_series_reads (s : Store) (key : SeriesKey) (h : s key = []) :
    rangeRead s key = [] ∧ latestSnapshot s key = none := by
  simp [rangeRead, lrange, latestSnapshot, lindex0, h]

/-- C9 witness: reads of a key the store never saw. -/
theorem empty_series_reads_witness :
    rangeRead emptyStore (.container "x" "cpu") = [] ∧
    latestSnapshot emptyStore (.container "x" "cpu") = none :=
  empty_series_reads emptyStore (.container "x" "cpu") rfl

/-- C10: a container write stores the computed percents passed through the
two-decimal formatting, while a host write stores the computed value as is;
the formatted value is an integer number of hundredths and differs from the
computed value by at most 1/200 = 0.005. -/
theorem workload_two_decimals_host_full (t : Int) (cid : String)
    (stats : ContainerStats) (s : Store) (cpu mem disk : ℚ) (nc : Int × Int) :
    (writeContainerSample t cid stats s (.container cid "cpu")).head? =
      some (t, [format2 (computeCpuPercent stats)]) ∧
    (writeContainerSample t cid stats s (.container cid "memory")).head? =
      some (t, [format2 (computeMemPercent stats)]) ∧
    ((collect_system_metrics t ⟨.ok cpu, .ok mem, .ok disk, .ok nc⟩ s).1
        (.host "cpu")).head? = some (t, [cpu]) ∧
    (∀ x : ℚ, ∃ z : ℤ, format2 x = (z : ℚ) / 100) ∧
    (∀ x : ℚ, |format2 x - x| ≤ 1 / 200) := by
  refine ⟨?_, ?_, ?_, fun x => ⟨round (x * 100), rfl⟩, fun x => ?_⟩
  · simp [writeContainerSample, appendTrim, ltrim, lpush]
    exact head?_take_cons _ _ _ (by decide)
  · simp [writeContainerSample, appendTrim, ltrim, lpush]
    exact head?_take_cons _ _ _ (by decide)
  · simp [collect_system_metrics, appendTrim, ltrim, lpush]
    exact head?_take_cons _ _ _ (by decide)
  · have h := abs_sub_round (x * 100)
    rw [abs_sub_comm] at h
    have he : format2 x - x = (((round (x * 100) : ℤ) : ℚ) - x * 100) / 100 := by
      unfold format2
      ring
    rw [he, abs_div, abs_of_nonneg (by norm_num : (0:ℚ) ≤ 100)]
    linarith

end Waf
